import Mathlib

/-!
Verification of the conversation session manager of BhashaVox AI
(files `memory.py`, `analytics.py`, `ai_engine.py`).

The Python classes are shallowly embedded as Lean structures with pure
state-passing operations.  Wall-clock time (`datetime.now()`) is threaded in
as an explicit `now : Nat` parameter (seconds).  Python floats appearing in
`analytics.py` are modelled as exact rationals `ℚ`; `round(x, 2)` is modelled
by exact round-half-to-even to two decimal places, matching Python's rounding
rule on exact values.  The HTTP call in `ai_engine.py` is modelled by an
explicit outcome oracle (`OllamaOutcome`), one constructor per control path of
`call_ollama`.
-/

/-! ### String utilities

`leadsList p l` models Python's "l starts with p" on character lists, and
`hasSeg needle hay` models Python's substring test `needle in hay`. -/

/-- Boolean test that `p` is a leading segment of `l`. -/
def leadsList : List Char → List Char → Bool
  | [], _ => true
  | _ :: _, [] => false
  | d :: ds, c :: cs => d == c && leadsList ds cs

/-- Boolean substring containment on character lists: Python's `needle in hay`. -/
def hasSeg (needle : List Char) : List Char → Bool
  | [] => needle.isEmpty
  | c :: rest => leadsList needle (c :: rest) || hasSeg needle rest

/-- Python's `needle in hay` on strings. -/
def strContains (hay needle : String) : Bool :=
  hasSeg needle.data hay.data

/-- Python's `s.startswith(p)` on strings (used to state the error-string shape). -/
def strStartsWith (s p : String) : Bool :=
  leadsList p.data s.data

/-- Python's `s.lower()`, character-wise lowercasing (the strings compared in
this codebase are ASCII, where Python's and Lean's lowercasing agree). -/
def lowerStr (s : String) : String :=
  ⟨s.data.map Char.toLower⟩

/-- Python's `s.strip()`: remove leading and trailing whitespace. -/
def trimStr (s : String) : String :=
  ⟨((s.data.dropWhile Char.isWhitespace).reverse.dropWhile Char.isWhitespace).reverse⟩

/-! ### `memory.py` — `ConversationMemory` -/

/-- One entry of `ConversationMemory.history`: the dict
`{"role": role, "message": message}` appended by `add_message`. -/
structure Message where
  role : String
  message : String
deriving DecidableEq, Repr

/-- State of `ConversationMemory` (`memory.py`, lines 5-16).  The field
`session_start` of the Python class is initialised to `None` and never read
or written anywhere in the repository, so it is omitted. -/
structure ConversationMemory where
  max_history : Nat
  history : List Message
  user_level : Option String
deriving DecidableEq, Repr

/-- A fresh `ConversationMemory(max_history)`; the Python default argument is
`max_history=10` and every construction site in the repository uses it. -/
def mkMemory (max_history : Nat) : ConversationMemory :=
  { max_history := max_history, history := [], user_level := none }

/-- Python slice `l[-k:]`: the last `k` elements, except that `l[-0:]` is the
whole list (`-0 == 0` in Python, so the slice starts at index 0). -/
def sliceLast (l : List α) (k : Nat) : List α :=
  if k = 0 then l else l.drop (l.length - k)

/-- `ConversationMemory.add_message` (`memory.py`, lines 18-33): append the
entry, then if the length exceeds `max_history * 2` keep only the slice
`history[-max_history * 2:]`. -/
def ConversationMemory.add_message (m : ConversationMemory) (role message : String) :
    ConversationMemory :=
  if (m.history ++ [Message.mk role message]).length > m.max_history * 2 then
    { m with history := sliceLast (m.history ++ [Message.mk role message]) (m.max_history * 2) }
  else
    { m with history := m.history ++ [Message.mk role message] }

/-- Display name used by `get_history_string`:
`"User" if msg["role"] == "user" else "BhashaVox AI"`. -/
def roleName (role : String) : String :=
  if role == "user" then "User" else "BhashaVox AI"

/-- One transcript line without its terminating newline: `f"{role_name}: {msg}"`. -/
def renderLine (msg : Message) : String :=
  roleName msg.role ++ ": " ++ msg.message

/-- Concatenation of `f"{role_name}: {msg['message']}\n"` over a message
list, in order.  The Python loop accumulates with `history_str += line` from
the left; by associativity of string concatenation the result is this
right-nested concatenation. -/
def renderLines : List Message → String
  | [] => ""
  | msg :: rest => (renderLine msg ++ "\n") ++ renderLines rest

/-- `ConversationMemory.get_history_string` (`memory.py`, lines 35-50): empty
string for empty history, otherwise the concatenation of
`f"{role_name}: {msg['message']}\n"` over the history in order. -/
def ConversationMemory.get_history_string (m : ConversationMemory) : String :=
  if m.history.isEmpty then "" else renderLines m.history

/-- Join a list of strings with a separator between consecutive elements and
nothing at either end (the plain reading of "joined by newlines"). -/
def joinSep (sep : String) : List String → String
  | [] => ""
  | [x] => x
  | x :: y :: rest => x ++ sep ++ joinSep sep (y :: rest)

/-- `ConversationMemory.set_user_level` (`memory.py`, lines 64-71). -/
def ConversationMemory.set_user_level (m : ConversationMemory) (level : String) :
    ConversationMemory :=
  { m with user_level := some level }

/-- `ConversationMemory.get_user_level` (`memory.py`, lines 73-80). -/
def ConversationMemory.get_user_level (m : ConversationMemory) : Option String :=
  m.user_level

/-- `ConversationMemory.clear_history` (`memory.py`, lines 82-86): resets only
`history`; `user_level` is untouched. -/
def ConversationMemory.clear_history (m : ConversationMemory) : ConversationMemory :=
  { m with history := [] }

/-- `ConversationMemory.get_conversation_count` (`memory.py`, lines 88-95):
the number of history entries whose role is `"user"`. -/
def ConversationMemory.get_conversation_count (m : ConversationMemory) : Nat :=
  (m.history.filter (fun msg => msg.role == "user")).length

/-! ### `analytics.py` — `AnalyticsTracker` -/

/-- One entry of `AnalyticsTracker.mistakes` (`analytics.py`, lines 28-33). -/
structure MistakeRecord where
  timestamp : Nat
  original : String
  corrected : String
  category : String
deriving DecidableEq, Repr

/-- State of `AnalyticsTracker` (`analytics.py`, lines 8-17).  The
`defaultdict(int)` field `mistake_categories` is modelled as an assoc list in
key-insertion order, matching Python dict iteration order. -/
structure AnalyticsTracker where
  mistakes : List MistakeRecord
  corrections_made : Nat
  total_messages : Nat
  mistake_categories : List (String × Nat)
  session_start : Nat
deriving DecidableEq, Repr

/-- A fresh `AnalyticsTracker()` constructed at time `now`. -/
def mkAnalytics (now : Nat) : AnalyticsTracker :=
  { mistakes := [], corrections_made := 0, total_messages := 0,
    mistake_categories := [], session_start := now }

/-- `self.mistake_categories[category] += 1` on a `defaultdict(int)`: bump an
existing key in place, or append the key with value 1 (a missing key is
inserted at the end of the dict's iteration order). -/
def bumpCategory (category : String) : List (String × Nat) → List (String × Nat)
  | [] => [(category, 1)]
  | (c, n) :: rest =>
    if c == category then (c, n + 1) :: rest
    else (c, n) :: bumpCategory category rest

/-- `AnalyticsTracker.log_mistake` (`analytics.py`, lines 19-35). -/
def AnalyticsTracker.log_mistake (a : AnalyticsTracker) (now : Nat)
    (original corrected category : String) : AnalyticsTracker :=
  { a with
    mistakes := a.mistakes ++ [⟨now, original, corrected, category⟩]
    corrections_made := a.corrections_made + 1
    mistake_categories := bumpCategory category a.mistake_categories }

/-- `AnalyticsTracker.log_message` (`analytics.py`, lines 37-41). -/
def AnalyticsTracker.log_message (a : AnalyticsTracker) : AnalyticsTracker :=
  { a with total_messages := a.total_messages + 1 }

/-- Exact round-half-to-even to the nearest integer, Python's rounding rule. -/
def roundHalfEven (q : ℚ) : ℤ :=
  if q - ⌊q⌋ < 1/2 then ⌊q⌋
  else if 1/2 < q - ⌊q⌋ then ⌊q⌋ + 1
  else if ⌊q⌋ % 2 = 0 then ⌊q⌋ else ⌊q⌋ + 1

/-- Python's `round(x, 2)` on exact values. -/
def round2 (q : ℚ) : ℚ :=
  (roundHalfEven (q * 100) : ℚ) / 100

/-- `AnalyticsTracker.get_accuracy_rate` (`analytics.py`, lines 43-55):
`100.0` when no messages, else
`round(((total_messages - len(mistakes)) / total_messages) * 100, 2)`. -/
def AnalyticsTracker.get_accuracy_rate (a : AnalyticsTracker) : ℚ :=
  if a.total_messages = 0 then 100
  else
    round2 ((((a.total_messages : ℚ) - (a.mistakes.length : ℚ)) / (a.total_messages : ℚ)) * 100)

/-- Insert one entry into a list already sorted by count descending, after all
entries with a strictly larger count (the placement a stable descending sort
gives an element relative to the later elements of the input). -/
def insertCountDesc (x : String × Nat) : List (String × Nat) → List (String × Nat)
  | [] => [x]
  | y :: ys => if y.2 > x.2 then y :: insertCountDesc x ys else x :: y :: ys

/-- Stable sort by count descending: the behaviour of Python's
`sorted(items, key=lambda x: x[1], reverse=True)` (Timsort is stable, and
`reverse=True` keeps equal elements in their original order). -/
def sortCountDesc : List (String × Nat) → List (String × Nat)
  | [] => []
  | x :: xs => insertCountDesc x (sortCountDesc xs)

/-- `AnalyticsTracker.get_common_mistakes` (`analytics.py`, lines 57-72): the
category/count pairs sorted by count descending, truncated to `top_n` (the
Python default argument is `top_n=5`). -/
def AnalyticsTracker.get_common_mistakes (a : AnalyticsTracker) (top_n : Nat) :
    List (String × Nat) :=
  (sortCountDesc a.mistake_categories).take top_n

/-- The dictionary returned by `AnalyticsTracker.get_session_summary`
(`analytics.py`, lines 83-90).  `common_mistakes` is
`dict(self.get_common_mistakes())`; since the category keys are pairwise
distinct, that dict is the pair list itself in order. -/
structure SessionSummary where
  total_messages : Nat
  corrections_made : Nat
  accuracy_rate : ℚ
  session_duration_minutes : ℚ
  common_mistakes : List (String × Nat)
  total_mistake_types : Nat
deriving DecidableEq, Repr

/-- `AnalyticsTracker.get_session_summary` (`analytics.py`, lines 74-90),
evaluated at wall-clock time `now` (seconds). -/
def AnalyticsTracker.get_session_summary (a : AnalyticsTracker) (now : Nat) :
    SessionSummary :=
  { total_messages := a.total_messages
    corrections_made := a.corrections_made
    accuracy_rate := a.get_accuracy_rate
    session_duration_minutes := round2 (((now : ℚ) - (a.session_start : ℚ)) / 60)
    common_mistakes := a.get_common_mistakes 5
    total_mistake_types := a.mistake_categories.length }

/-- `AnalyticsTracker.reset_session` (`analytics.py`, lines 104-112). -/
def AnalyticsTracker.reset_session (a : AnalyticsTracker) (now : Nat) : AnalyticsTracker :=
  { mistakes := [], corrections_made := 0, total_messages := 0,
    mistake_categories := [], session_start := now }

/-! ### `prompts.py` — prompt templates -/

/-- `SYSTEM_PROMPT` of `prompts.py` (lines 5-29). -/
def SYSTEM_PROMPT : String :=
  "You are BhashaVox AI, a friendly English speaking coach designed to help users improve their English fluency, grammar, and confidence.\n\nYour role:\n1. Have natural conversations with users\n2. Correct grammar mistakes politely and clearly\n3. Explain corrections in simple terms\n4. Encourage and motivate the user\n5. Ask follow-up questions to keep the conversation flowing\n6. Adapt to the user's proficiency level\n\nResponse format when there are mistakes:\n✅ **Corrected:** [corrected sentence]\n💡 **Tip:** [simple explanation of the mistake]\n💬 **Reply:** [your conversational response]\n\nResponse format when there are NO mistakes:\n💬 [your conversational response]\n\nGuidelines:\n- Be encouraging and positive\n- Use simple language for explanations\n- Keep corrections brief and focused\n- Continue the conversation naturally\n- Don't overwhelm with too many corrections at once\n"

/-- `create_conversation_prompt` (`prompts.py`, lines 31-42); the
`if conversation_history:` truthiness test is non-emptiness of the string. -/
def create_conversation_prompt (user_message conversation_history : String) : String :=
  (SYSTEM_PROMPT ++ "\n\n")
    ++ (if conversation_history == "" then ""
        else "Previous conversation:\n" ++ conversation_history ++ "\n\n")
    ++ "User: " ++ user_message ++ "\n\nBhashaVox AI:"

/-- `create_level_assessment_prompt` (`prompts.py`, lines 44-53). -/
def create_level_assessment_prompt (user_message : String) : String :=
  "Based on this message, assess the user's English proficiency level (Beginner/Intermediate/Advanced).\nConsider grammar, vocabulary, and sentence structure.\n\nUser message: \"" ++ user_message ++ "\"\n\nRespond with only: Beginner, Intermediate, or Advanced"

/-! ### `ai_engine.py` — `BhashaVoxEngine`

The HTTP request performed by `call_ollama` is modelled by an oracle value of
type `OllamaOutcome`: one constructor for each control path of the
`try`/`except` in `call_ollama` (`ai_engine.py`, lines 38-63).  The engine's
configuration fields (`ollama_url`, `model_name`, `max_tokens`,
`temperature`) only parameterise the HTTP request and are absorbed into the
oracle. -/

/-- Outcome of the `requests.post` call inside `call_ollama`:
`success body` is the status-200 path with `response.json()["response"] = body`;
`httpStatus code` is the non-200 status path; the remaining constructors are
the three `except` clauses. -/
inductive OllamaOutcome where
  | success (body : String)
  | httpStatus (code : Nat)
  | connectionError
  | timeout
  | otherException (msg : String)
deriving DecidableEq, Repr

/-- `BhashaVoxEngine.call_ollama` (`ai_engine.py`, lines 27-63): the response
body on success, a descriptive error string on every failure path. -/
def call_ollama : OllamaOutcome → String
  | .success body => body
  | .httpStatus code => "Error: Ollama returned status code " ++ toString code
  | .connectionError => "Error: Cannot connect to Ollama. Make sure Ollama is running (ollama serve)"
  | .timeout => "Error: Request timed out. The model might be loading."
  | .otherException msg => "Error: " ++ msg

/-- State of `BhashaVoxEngine` (`ai_engine.py`, lines 14-25): the owned
`ConversationMemory` and `AnalyticsTracker` (constructed with their Python
defaults, `max_history=10` and a fresh tracker). -/
structure BhashaVoxEngine where
  memory : ConversationMemory
  analytics : AnalyticsTracker
deriving DecidableEq, Repr

/-- A fresh `BhashaVoxEngine()` constructed at time `now`. -/
def mkEngine (now : Nat) : BhashaVoxEngine :=
  { memory := mkMemory 10, analytics := mkAnalytics now }

/-- The correction heuristic of `chat` (`ai_engine.py`, line 116):
`"✅" in ai_response or "Corrected:" in ai_response`. -/
def hasCorrectionMarker (ai_response : String) : Bool :=
  strContains ai_response "✅" || strContains ai_response "Corrected:"

/-- `BhashaVoxEngine.chat` (`ai_engine.py`, lines 87-119), with the LLM call
replaced by the outcome oracle `o` and `datetime.now()` by `now`.  Returns the
updated engine together with the returned `ai_response`. -/
def BhashaVoxEngine.chat (e : BhashaVoxEngine) (now : Nat) (user_message : String)
    (o : OllamaOutcome) : BhashaVoxEngine × String :=
  let e1 : BhashaVoxEngine := { e with analytics := e.analytics.log_message }
  let e2 : BhashaVoxEngine := { e1 with memory := e1.memory.add_message "user" user_message }
  let ai_response := call_ollama o
  let e3 : BhashaVoxEngine := { e2 with memory := e2.memory.add_message "assistant" ai_response }
  if hasCorrectionMarker ai_response then
    ({ e3 with analytics := e3.analytics.log_mistake now user_message ai_response "grammar" },
     ai_response)
  else
    (e3, ai_response)

/-- The `for valid_level in valid_levels:` loop of `assess_level`
(`ai_engine.py`, lines 135-139): the first level name whose lowercase form is
contained in the lowercase stripped response, if any. -/
def findLevel (level : String) : List String → Option String
  | [] => none
  | v :: vs =>
    if strContains (lowerStr level) (lowerStr v) then some v else findLevel level vs

/-- `BhashaVoxEngine.assess_level` (`ai_engine.py`, lines 121-141): strips the
raw response, scans `["Beginner", "Intermediate", "Advanced"]` in order for
case-insensitive containment, stores and returns the first match; returns the
default `"Intermediate"` without touching memory when nothing matches. -/
def BhashaVoxEngine.assess_level (e : BhashaVoxEngine) (o : OllamaOutcome) :
    BhashaVoxEngine × String :=
  match findLevel (trimStr (call_ollama o)) ["Beginner", "Intermediate", "Advanced"] with
  | some v => ({ e with memory := e.memory.set_user_level v }, v)
  | none => (e, "Intermediate")

/-- The dictionary returned by `BhashaVoxEngine.get_stats` (`ai_engine.py`,
lines 143-153): the session summary plus `conversation_turns` and
`user_level`. -/
structure Stats where
  total_messages : Nat
  corrections_made : Nat
  accuracy_rate : ℚ
  session_duration_minutes : ℚ
  common_mistakes : List (String × Nat)
  total_mistake_types : Nat
  conversation_turns : Nat
  user_level : Option String
deriving DecidableEq, Repr

/-- `BhashaVoxEngine.get_stats` (`ai_engine.py`, lines 143-153). -/
def BhashaVoxEngine.get_stats (e : BhashaVoxEngine) (now : Nat) : Stats :=
  let s := e.analytics.get_session_summary now
  { total_messages := s.total_messages
    corrections_made := s.corrections_made
    accuracy_rate := s.accuracy_rate
    session_duration_minutes := s.session_duration_minutes
    common_mistakes := s.common_mistakes
    total_mistake_types := s.total_mistake_types
    conversation_turns := e.memory.get_conversation_count
    user_level := e.memory.get_user_level }

/-- `BhashaVoxEngine.reset_session` (`ai_engine.py`, lines 155-161): clears
the history, resets the analytics, returns a confirmation string. -/
def BhashaVoxEngine.reset_session (e : BhashaVoxEngine) (now : Nat) :
    BhashaVoxEngine × String :=
  ({ memory := e.memory.clear_history, analytics := e.analytics.reset_session now },
   "Session reset successfully!")

/-! ### Sequences of operations, used to state the claims -/

/-- View a `(role, message)` pair as a history entry. -/
def toMsg (p : String × String) : Message :=
  Message.mk p.1 p.2

/-- Run a sequence of `add_message` calls, in order. -/
def applyMessages (m : ConversationMemory) (ms : List (String × String)) :
    ConversationMemory :=
  ms.foldl (fun acc p => acc.add_message p.1 p.2) m

/-- Run a sequence of `log_mistake` calls, in order; each list element is the
`(original, corrected, category)` argument triple. -/
def applyMistakes (a : AnalyticsTracker) (now : Nat)
    (calls : List (String × String × String)) : AnalyticsTracker :=
  calls.foldl (fun acc c => acc.log_mistake now c.1 c.2.1 c.2.2) a

/-- The category bumps performed by a sequence of `log_mistake` calls. -/
def bumpFold (calls : List (String × String × String)) (l : List (String × Nat)) :
    List (String × Nat) :=
  calls.foldl (fun acc c => bumpCategory c.2.2 acc) l

/-- Argument triples for `k` mistakes of category `"grammar"` followed by `m`
of category `"vocabulary"`. -/
def gvCalls (k m : Nat) : List (String × String × String) :=
  List.replicate k ("go", "gc", "grammar") ++ List.replicate m ("vo", "vc", "vocabulary")

/-- One call to a mutating method of `AnalyticsTracker`. -/
inductive AnalyticsOp where
  | logMessage
  | logMistake (now : Nat) (original corrected category : String)
  | reset (now : Nat)
deriving DecidableEq, Repr

/-- Execute one `AnalyticsOp`. -/
def runOp (a : AnalyticsTracker) : AnalyticsOp → AnalyticsTracker
  | .logMessage => a.log_message
  | .logMistake now original corrected category => a.log_mistake now original corrected category
  | .reset now => a.reset_session now

/-- Execute a sequence of `AnalyticsOp`s, in order. -/
def runOps (a : AnalyticsTracker) (ops : List AnalyticsOp) : AnalyticsTracker :=
  ops.foldl runOp a

/-! ### Concrete states used by counterexamples and witnesses -/

/-- A tracker with one `log_message` and two `log_mistake` calls: more mistake
records than messages. -/
def overMistakes : AnalyticsTracker :=
  (((mkAnalytics 0).log_message).log_mistake 0 "a" "b" "grammar").log_mistake 0 "c" "d" "grammar"

/-- A tracker with six mistakes in six distinct categories. -/
def sixCats : AnalyticsTracker :=
  applyMistakes (mkAnalytics 0) 0
    [("o", "c", "a"), ("o", "c", "b"), ("o", "c", "c"), ("o", "c", "d"),
     ("o", "c", "e"), ("o", "c", "f")]

/-- A tracker with three messages and one mistake record. -/
def threeMsgsOneMistake : AnalyticsTracker :=
  ((((mkAnalytics 0).log_message).log_message).log_message).log_mistake 0 "a" "b" "grammar"

/-- A memory holding a single user message `"hi"`. -/
def oneUserMsgMemory : ConversationMemory :=
  (mkMemory 10).add_message "user" "hi"

/-- Three messages to append to a `ConversationMemory(1)`, one more than its
cap of `2 × 1`. -/
def msgs3 : List (String × String) :=
  [("user", "a"), ("assistant", "b"), ("user", "c")]

/-! ## Theorems -/

/-! ### Helper lemmas about strings -/

theorem leadsList_append_of {p a : List Char} (b : List Char)
    (h : leadsList p a = true) : leadsList p (a ++ b) = true := by
  induction p generalizing a with
  | nil => rfl
  | cons d ds ih =>
    cases a with
    | nil => simp [leadsList] at h
    | cons c cs =>
      simp only [leadsList, Bool.and_eq_true] at h ⊢
      exact ⟨h.1, ih h.2⟩

theorem strStartsWith_append_right (s b p : String)
    (h : strStartsWith s p = true) : strStartsWith (s ++ b) p = true :=
  leadsList_append_of b.data h

/-! ### Helper lemmas about `chat` -/

theorem chat_snd (e : BhashaVoxEngine) (now : Nat) (u : String) (o : OllamaOutcome) :
    (e.chat now u o).2 = call_ollama o := by
  unfold BhashaVoxEngine.chat
  by_cases h : hasCorrectionMarker (call_ollama o) <;> simp [h]

theorem chat_analytics (e : BhashaVoxEngine) (now : Nat) (u : String) (o : OllamaOutcome) :
    (e.chat now u o).1.analytics =
      if hasCorrectionMarker (call_ollama o)
      then (e.analytics.log_message).log_mistake now u (call_ollama o) "grammar"
      else e.analytics.log_message := by
  unfold BhashaVoxEngine.chat
  by_cases h : hasCorrectionMarker (call_ollama o) <;> simp [h]

/-! ### C6 — reset clears history and analytics, preserves the level -/

/-- C6: `reset_session` clears the History and all analytics records and
counters — an immediately following `get_stats` yields `total_messages = 0`,
`corrections_made = 0`, `accuracy_rate = 100.0` and `conversation_turns = 0` —
but leaves the stored user level unchanged. -/
theorem C6_reset_session (e : BhashaVoxEngine) (now now2 : Nat) :
    ((e.reset_session now).1.memory.user_level = e.memory.user_level)
    ∧ ((e.reset_session now).1.memory.history = [])
    ∧ ((e.reset_session now).1.analytics.mistakes = [])
    ∧ ((e.reset_session now).1.analytics.mistake_categories = [])
    ∧ (((e.reset_session now).1.get_stats now2).total_messages = 0)
    ∧ (((e.reset_session now).1.get_stats now2).corrections_made = 0)
    ∧ (((e.reset_session now).1.get_stats now2).accuracy_rate = 100)
    ∧ (((e.reset_session now).1.get_stats now2).conversation_turns = 0) :=
  ⟨rfl, rfl, rfl, rfl, rfl, rfl, rfl, rfl⟩

/-! ### C5 — inference failures degrade to an error string -/

/-- C5: for every outcome of the inference call, `chat` returns the string
produced by `call_ollama` (it never raises), and on every failure outcome
that string is a descriptive error string starting with `"Error:"`. -/
theorem C5_degrade_to_error_string (o : OllamaOutcome) :
    (∀ (e : BhashaVoxEngine) (now : Nat) (u : String),
        (e.chat now u o).2 = call_ollama o)
    ∧ ((∀ body, o ≠ OllamaOutcome.success body) →
        strStartsWith (call_ollama o) "Error:" = true) := by
  constructor
  · intro e now u
    exact chat_snd e now u o
  · intro h
    cases o with
    | success body => exact absurd rfl (h body)
    | httpStatus code => exact strStartsWith_append_right _ _ _ (by decide)
    | connectionError => decide
    | timeout => decide
    | otherException msg => exact strStartsWith_append_right _ _ _ (by decide)

/-- C5 witness: the timeout outcome, on a fresh engine. -/
theorem C5_degrade_to_error_string_witness :
    (((mkEngine 0).chat 1 "hello" OllamaOutcome.timeout).2 =
        call_ollama OllamaOutcome.timeout)
    ∧ strStartsWith (call_ollama OllamaOutcome.timeout) "Error:" = true :=
  ⟨(C5_degrade_to_error_string OllamaOutcome.timeout).1 (mkEngine 0) 1 "hello",
   (C5_degrade_to_error_string OllamaOutcome.timeout).2
     (fun _ h => OllamaOutcome.noConfusion h)⟩

/-! ### C3 — the correction heuristic of `chat` -/

/-- C3: `chat` logs a mistake record if and only if the response contains the
checkmark glyph or `"Corrected:"`; when it does, the correction counter grows
by exactly 1 and the appended record has category `"grammar"`, original equal
to the user's text and corrected equal to the full response; otherwise the
mistake records and the counter are unchanged. -/
theorem C3_correction_heuristic (e : BhashaVoxEngine) (now : Nat) (u : String)
    (o : OllamaOutcome) :
    (hasCorrectionMarker (call_ollama o) = true →
        (e.chat now u o).1.analytics.mistakes =
            e.analytics.mistakes ++ [⟨now, u, call_ollama o, "grammar"⟩]
          ∧ (e.chat now u o).1.analytics.corrections_made =
              e.analytics.corrections_made + 1)
    ∧ (hasCorrectionMarker (call_ollama o) = false →
        (e.chat now u o).1.analytics.mistakes = e.analytics.mistakes
          ∧ (e.chat now u o).1.analytics.corrections_made =
              e.analytics.corrections_made) := by
  constructor
  · intro h
    rw [chat_analytics, if_pos h]
    exact ⟨rfl, rfl⟩
  · intro h
    rw [chat_analytics, if_neg (by simp [h])]
    exact ⟨rfl, rfl⟩

/-- C3 witness: a response containing `"Corrected:"` on a fresh engine. -/
theorem C3_correction_heuristic_witness :
    hasCorrectionMarker
        (call_ollama (OllamaOutcome.success "✅ Corrected: I have an apple")) = true
    ∧ ((mkEngine 0).chat 5 "I has an apple"
          (OllamaOutcome.success "✅ Corrected: I have an apple")).1.analytics.mistakes =
        (mkEngine 0).analytics.mistakes ++
          [⟨5, "I has an apple", call_ollama
              (OllamaOutcome.success "✅ Corrected: I have an apple"), "grammar"⟩] :=
  ⟨by decide,
   ((C3_correction_heuristic (mkEngine 0) 5 "I has an apple"
       (OllamaOutcome.success "✅ Corrected: I have an apple")).1 (by decide)).1⟩

/-! ### C4 — level assessment -/

/-- C4: `assess_level` scans the (stripped, lowercased) response for the three
level names in priority order Beginner, Intermediate, Advanced, returns the
first one contained and stores it as the user level; if none is contained it
returns `"Intermediate"` and leaves the stored level unchanged. -/
theorem C4_assess_level (e : BhashaVoxEngine) (o : OllamaOutcome) :
    (strContains (lowerStr (trimStr (call_ollama o))) "beginner" = true →
        e.assess_level o =
          ({ e with memory := e.memory.set_user_level "Beginner" }, "Beginner"))
    ∧ (strContains (lowerStr (trimStr (call_ollama o))) "beginner" = false →
        strContains (lowerStr (trimStr (call_ollama o))) "intermediate" = true →
        e.assess_level o =
          ({ e with memory := e.memory.set_user_level "Intermediate" }, "Intermediate"))
    ∧ (strContains (lowerStr (trimStr (call_ollama o))) "beginner" = false →
        strContains (lowerStr (trimStr (call_ollama o))) "intermediate" = false →
        strContains (lowerStr (trimStr (call_ollama o))) "advanced" = true →
        e.assess_level o =
          ({ e with memory := e.memory.set_user_level "Advanced" }, "Advanced"))
    ∧ (strContains (lowerStr (trimStr (call_ollama o))) "beginner" = false →
        strContains (lowerStr (trimStr (call_ollama o))) "intermediate" = false →
        strContains (lowerStr (trimStr (call_ollama o))) "advanced" = false →
        e.assess_level o = (e, "Intermediate")) := by
  have hb : lowerStr "Beginner" = "beginner" := rfl
  have hi : lowerStr "Intermediate" = "intermediate" := rfl
  have ha : lowerStr "Advanced" = "advanced" := rfl
  refine ⟨?_, ?_, ?_, ?_⟩
  · intro h1
    simp [BhashaVoxEngine.assess_level, findLevel, hb, h1]
  · intro h1 h2
    simp [BhashaVoxEngine.assess_level, findLevel, hb, hi, h1, h2]
  · intro h1 h2 h3
    simp [BhashaVoxEngine.assess_level, findLevel, hb, hi, ha, h1, h2, h3]
  · intro h1 h2 h3
    simp [BhashaVoxEngine.assess_level, findLevel, hb, hi, ha, h1, h2, h3]

/-- C4 witness: the spec's two sample responses; the first contains
`"Beginner"`, the second contains no level name. -/
theorem C4_assess_level_witness :
    (mkEngine 0).assess_level
        (OllamaOutcome.success "This is definitely Beginner level writing") =
      ({ mkEngine 0 with
          memory := (mkEngine 0).memory.set_user_level "Beginner" }, "Beginner")
    ∧ (mkEngine 0).assess_level (OllamaOutcome.success "Unclear / gibberish") =
        (mkEngine 0, "Intermediate") :=
  ⟨(C4_assess_level (mkEngine 0)
      (OllamaOutcome.success "This is definitely Beginner level writing")).1 (by decide),
   (C4_assess_level (mkEngine 0)
      (OllamaOutcome.success "Unclear / gibberish")).2.2.2 (by decide) (by decide) (by decide)⟩

/-! ### C10 — counter invariant of the analytics tracker -/

theorem bumpCategory_sum (c : String) :
    ∀ l : List (String × Nat),
      ((bumpCategory c l).map Prod.snd).sum = ((l.map Prod.snd).sum) + 1 := by
  intro l
  induction l with
  | nil => simp [bumpCategory]
  | cons y ys ih =>
    obtain ⟨s, n⟩ := y
    by_cases h : s == c
    · simp [bumpCategory, h]
      omega
    · simp [bumpCategory, h, ih]
      omega

theorem runOp_counters (a : AnalyticsTracker) (op : AnalyticsOp)
    (h1 : a.corrections_made = a.mistakes.length)
    (h2 : a.mistakes.length = (a.mistake_categories.map Prod.snd).sum) :
    (runOp a op).corrections_made = (runOp a op).mistakes.length
    ∧ (runOp a op).mistakes.length =
        ((runOp a op).mistake_categories.map Prod.snd).sum := by
  cases op with
  | logMessage => exact ⟨h1, h2⟩
  | logMistake now original corrected category =>
    refine ⟨?_, ?_⟩
    · simp [runOp, AnalyticsTracker.log_mistake, h1]
    · simp [runOp, AnalyticsTracker.log_mistake, bumpCategory_sum, h2]
  | reset now => exact ⟨rfl, rfl⟩

/-- C10: in the initial tracker state and after every sequence of
`log_message`, `log_mistake` and `reset_session` calls, `corrections_made`
equals the length of the `mistakes` list, which equals the sum of the
per-category counts. -/
theorem C10_counter_invariant (start : Nat) (ops : List AnalyticsOp) :
    (runOps (mkAnalytics start) ops).corrections_made =
        (runOps (mkAnalytics start) ops).mistakes.length
    ∧ (runOps (mkAnalytics start) ops).mistakes.length =
        ((runOps (mkAnalytics start) ops).mistake_categories.map Prod.snd).sum := by
  have general : ∀ (l : List AnalyticsOp) (a : AnalyticsTracker),
      a.corrections_made = a.mistakes.length →
      a.mistakes.length = ((a.mistake_categories.map Prod.snd).sum) →
      (runOps a l).corrections_made = (runOps a l).mistakes.length
      ∧ (runOps a l).mistakes.length =
          ((runOps a l).mistake_categories.map Prod.snd).sum := by
    intro l
    induction l with
    | nil => intro a h1 h2; exact ⟨h1, h2⟩
    | cons op rest ih =>
      intro a h1 h2
      have step := runOp_counters a op h1 h2
      exact ih (runOp a op) step.1 step.2
  exact general ops (mkAnalytics start) rfl rfl

/-! ### C2 — accuracy rate -/

theorem roundHalfEven_nonneg (q : ℚ) (h : 0 ≤ q) : 0 ≤ roundHalfEven q := by
  have hf : (0 : ℤ) ≤ ⌊q⌋ := Int.floor_nonneg.mpr h
  unfold roundHalfEven
  split_ifs <;> omega

theorem roundHalfEven_le_cap (q : ℚ) (B : ℤ) (h : q ≤ B) : roundHalfEven q ≤ B := by
  have h1 : ⌊q⌋ ≤ B := by
    have := Int.floor_le_floor h
    rwa [Int.floor_intCast] at this
  have hfl : (⌊q⌋ : ℚ) ≤ q := Int.floor_le q
  unfold roundHalfEven
  split_ifs with c1 c2 c3
  · exact h1
  · -- strictly more than a half above the floor: the floor is below B
    have hq : (⌊q⌋ : ℚ) + 1/2 < q := by linarith
    have : (⌊q⌋ : ℚ) < (B : ℚ) := by
      have : ((B : ℚ)) ≥ q := h
      linarith
    have hlt : ⌊q⌋ < B := by exact_mod_cast this
    omega
  · exact h1
  · -- exactly a half above the floor, odd floor: rounds up, still at most B
    have h5 : q - ⌊q⌋ = 1/2 := le_antisymm (not_lt.mp c2) (not_lt.mp c1)
    have : (⌊q⌋ : ℚ) < (B : ℚ) := by linarith
    have hlt : ⌊q⌋ < B := by exact_mod_cast this
    omega

theorem round2_bounds (q : ℚ) (h0 : 0 ≤ q) (h100 : q ≤ 100) :
    0 ≤ round2 q ∧ round2 q ≤ 100 := by
  have hq0 : 0 ≤ q * 100 := by positivity
  have hq1 : q * 100 ≤ ((10000 : ℤ) : ℚ) := by push_cast; linarith
  have g0 : (0 : ℤ) ≤ roundHalfEven (q * 100) := roundHalfEven_nonneg _ hq0
  have g1 : roundHalfEven (q * 100) ≤ 10000 := roundHalfEven_le_cap _ _ hq1
  have g0q : (0 : ℚ) ≤ (roundHalfEven (q * 100) : ℚ) := by exact_mod_cast g0
  have g1q : ((roundHalfEven (q * 100) : ℤ) : ℚ) ≤ 10000 := by exact_mod_cast g1
  unfold round2
  constructor
  · linarith
  · linarith

/-- C2 (amended): `get_accuracy_rate` never raises (it is total), returns
exactly 100 when `total_messages = 0`, otherwise returns
`100 × (total_messages − len(mistakes)) / total_messages` rounded to two
decimal places; the result lies in `[0, 100]` whenever the number of mistake
records does not exceed `total_messages`. -/
theorem C2_accuracy_rate (a : AnalyticsTracker) :
    (a.total_messages = 0 → a.get_accuracy_rate = 100)
    ∧ (a.total_messages ≠ 0 →
        a.get_accuracy_rate =
          round2 ((((a.total_messages : ℚ) - (a.mistakes.length : ℚ)) /
              (a.total_messages : ℚ)) * 100))
    ∧ (a.mistakes.length ≤ a.total_messages →
        0 ≤ a.get_accuracy_rate ∧ a.get_accuracy_rate ≤ 100) := by
  refine ⟨?_, ?_, ?_⟩
  · intro h
    simp [AnalyticsTracker.get_accuracy_rate, h]
  · intro h
    simp [AnalyticsTracker.get_accuracy_rate, h]
  · intro hm
    by_cases h : a.total_messages = 0
    · rw [(by simp [AnalyticsTracker.get_accuracy_rate, h] :
          a.get_accuracy_rate = 100)]
      norm_num
    · have ht : (0 : ℚ) < (a.total_messages : ℚ) := by
        exact_mod_cast Nat.pos_of_ne_zero h
      have hmq : ((a.mistakes.length : ℚ)) ≤ (a.total_messages : ℚ) := by
        exact_mod_cast hm
      have hraw0 : 0 ≤ ((a.total_messages : ℚ) - (a.mistakes.length : ℚ)) /
          (a.total_messages : ℚ) := by
        apply div_nonneg (by linarith) (le_of_lt ht)
      have hraw1 : ((a.total_messages : ℚ) - (a.mistakes.length : ℚ)) /
          (a.total_messages : ℚ) ≤ 1 := by
        rw [div_le_one ht]
        have : (0 : ℚ) ≤ (a.mistakes.length : ℚ) := by positivity
        linarith
      have := round2_bounds ((((a.total_messages : ℚ) - (a.mistakes.length : ℚ)) /
          (a.total_messages : ℚ)) * 100) (by linarith) (by linarith)
      simpa [AnalyticsTracker.get_accuracy_rate, h] using this

/-- C2 witness: three messages and one mistake give an accuracy rate inside
`[0, 100]`; a fresh tracker reports 100. -/
theorem C2_accuracy_rate_witness :
    (mkAnalytics 5).get_accuracy_rate = 100
    ∧ (0 ≤ threeMsgsOneMistake.get_accuracy_rate
        ∧ threeMsgsOneMistake.get_accuracy_rate ≤ 100) :=
  ⟨(C2_accuracy_rate (mkAnalytics 5)).1 rfl,
   (C2_accuracy_rate threeMsgsOneMistake).2.2 (by decide)⟩

/-- C2 counterexample: with one `log_message` and two `log_mistake` calls the
rate is −100, outside `[0, 100]`; and with three messages and one mistake the
returned value is the rounded 66.67, not the exact fraction 200/3 — so the
claim's "float in [0,100] equal to 100 × (total − mistakes) / total" fails on
both counts. -/
theorem C2_accuracy_rate_counterexample :
    overMistakes.get_accuracy_rate < 0
    ∧ threeMsgsOneMistake.get_accuracy_rate ≠
        (((threeMsgsOneMistake.total_messages : ℚ) -
            (threeMsgsOneMistake.mistakes.length : ℚ)) /
          (threeMsgsOneMistake.total_messages : ℚ)) * 100 := by
  have h1 : overMistakes.get_accuracy_rate = -100 := by
    norm_num [overMistakes, mkAnalytics, AnalyticsTracker.log_message,
      AnalyticsTracker.log_mistake, AnalyticsTracker.get_accuracy_rate,
      round2, roundHalfEven]
  have h2 : threeMsgsOneMistake.get_accuracy_rate = 6667 / 100 := by
    norm_num [threeMsgsOneMistake, mkAnalytics, AnalyticsTracker.log_message,
      AnalyticsTracker.log_mistake, AnalyticsTracker.get_accuracy_rate,
      round2, roundHalfEven]
  have h3 : threeMsgsOneMistake.total_messages = 3 := rfl
  have h4 : threeMsgsOneMistake.mistakes.length = 1 := rfl
  constructor
  · rw [h1]; norm_num
  · rw [h2, h3, h4]; norm_num

/-! ### C1 — bounded history with FIFO eviction -/

theorem drop_append_drop {α : Type} (A B : List α) (d k : Nat) (hd : d ≤ A.length) :
    (A.drop d ++ B).drop k = (A ++ B).drop (d + k) := by
  rw [← List.drop_append_of_le_length hd, List.drop_drop]

theorem add_message_max_history (m : ConversationMemory) (r t : String) :
    (m.add_message r t).max_history = m.max_history := by
  unfold ConversationMemory.add_message
  split <;> rfl

theorem add_message_history (m : ConversationMemory) (r t : String)
    (hmh : 1 ≤ m.max_history) (hlen : m.history.length ≤ m.max_history * 2) :
    (m.add_message r t).history =
      (m.history ++ [Message.mk r t]).drop
        ((m.history.length + 1) - m.max_history * 2) := by
  unfold ConversationMemory.add_message sliceLast
  split_ifs with h1 h2
  · exact absurd h2 (by omega)
  · simp [List.length_append]
  · simp [List.length_append] at h1
    have h0 : (m.history.length + 1) - m.max_history * 2 = 0 := by omega
    simp [h0]

theorem applyMessages_spec (ms : List (String × String)) :
    ∀ (m : ConversationMemory), 1 ≤ m.max_history →
      m.history.length ≤ m.max_history * 2 →
      (applyMessages m ms).max_history = m.max_history
      ∧ (applyMessages m ms).history =
          (m.history ++ ms.map toMsg).drop
            ((m.history.length + ms.length) - m.max_history * 2) := by
  induction ms with
  | nil =>
    intro m h1 h2
    refine ⟨rfl, ?_⟩
    have h0 : m.history.length - m.max_history * 2 = 0 := by omega
    simp [applyMessages, h0]
  | cons p rest ih =>
    intro m h1 h2
    have hmax := add_message_max_history m p.1 p.2
    have hhist := add_message_history m p.1 p.2 h1 h2
    have hlen : (m.add_message p.1 p.2).history.length ≤
        (m.add_message p.1 p.2).max_history * 2 := by
      rw [hmax, hhist]
      simp [List.length_drop, List.length_append]
      omega
    have step := ih (m.add_message p.1 p.2) (by rw [hmax]; exact h1) hlen
    have eA : applyMessages m (p :: rest) = applyMessages (m.add_message p.1 p.2) rest := rfl
    refine ⟨by rw [eA, step.1, hmax], ?_⟩
    rw [eA, step.2, hmax, hhist]
    rw [drop_append_drop _ _ _ _ (by simp [List.length_append])]
    rw [List.append_assoc, List.singleton_append]
    have harith : ((m.history.length + 1) - m.max_history * 2) +
          ((((m.history ++ [Message.mk p.1 p.2]).drop
              ((m.history.length + 1) - m.max_history * 2)).length + rest.length)
            - m.max_history * 2) =
        (m.history.length + (p :: rest).length) - m.max_history * 2 := by
      simp [List.length_drop, List.length_append]
      omega
    rw [harith]
    simp [toMsg]

/-- C1: starting from a fresh memory with positive `max_history`, after any
sequence of `add_message` calls the history is exactly the last
`max_history * 2` of the appended entries (all of them when they fit), so its
length never exceeds `max_history * 2`, equals it as soon as more entries were
appended, and the retained entries are the most recent ones in their original
relative order.  (For `max_history = 0` the Python slice `history[-0:]` would
disable eviction; every construction site in the repository uses the default
`max_history = 10`.) -/
theorem C1_history_bound (mh : Nat) (hmh : 1 ≤ mh) (ms : List (String × String)) :
    (applyMessages (mkMemory mh) ms).history = (ms.map toMsg).drop (ms.length - mh * 2)
    ∧ (applyMessages (mkMemory mh) ms).history.length ≤ mh * 2
    ∧ (mh * 2 < ms.length → (applyMessages (mkMemory mh) ms).history.length = mh * 2) := by
  have h := applyMessages_spec ms (mkMemory mh) (by simpa [mkMemory] using hmh)
    (by simp [mkMemory])
  have e1 : (applyMessages (mkMemory mh) ms).history =
      (ms.map toMsg).drop (ms.length - mh * 2) := by
    have := h.2
    simpa [mkMemory] using this
  refine ⟨e1, ?_, ?_⟩
  · rw [e1]
    simp [List.length_drop, List.length_map]
    omega
  · intro hlt
    rw [e1]
    simp [List.length_drop, List.length_map]
    omega

/-- C1 witness: `max_history = 1` and three appended messages; the history
keeps exactly the last two, in order. -/
theorem C1_history_bound_witness :
    (applyMessages (mkMemory 1) msgs3).history = (msgs3.map toMsg).drop (msgs3.length - 1 * 2)
    ∧ (applyMessages (mkMemory 1) msgs3).history.length ≤ 1 * 2
    ∧ (1 * 2 < msgs3.length → (applyMessages (mkMemory 1) msgs3).history.length = 1 * 2) :=
  C1_history_bound 1 (by decide) msgs3

/-! ### C7 — most common mistake categories -/

theorem mem_insertCountDesc {x z : String × Nat} :
    ∀ {l : List (String × Nat)}, z ∈ insertCountDesc x l → z = x ∨ z ∈ l := by
  intro l
  induction l with
  | nil =>
    intro h
    simp [insertCountDesc] at h
    exact Or.inl h
  | cons y ys ih =>
    intro h
    by_cases hc : y.2 > x.2
    · simp [insertCountDesc, hc] at h
      rcases h with h | h
      · exact Or.inr (by simp [h])
      · rcases ih h with h' | h'
        · exact Or.inl h'
        · exact Or.inr (by simp [h'])
    · simp [insertCountDesc, hc] at h
      rcases h with h | h | h
      · exact Or.inl h
      · exact Or.inr (by simp [h])
      · exact Or.inr (by simp [h])

theorem pairwise_insertCountDesc (x : String × Nat) :
    ∀ {l : List (String × Nat)}, l.Pairwise (fun a b => b.2 ≤ a.2) →
      (insertCountDesc x l).Pairwise (fun a b => b.2 ≤ a.2) := by
  intro l
  induction l with
  | nil => intro _; simp [insertCountDesc]
  | cons y ys ih =>
    intro hp
    rw [List.pairwise_cons] at hp
    obtain ⟨hy, hys⟩ := hp
    by_cases hc : y.2 > x.2
    · simp only [insertCountDesc, if_pos hc]
      rw [List.pairwise_cons]
      refine ⟨?_, ih hys⟩
      intro z hz
      rcases mem_insertCountDesc hz with h | h
      · subst h; omega
      · exact hy z h
    · simp only [insertCountDesc, if_neg hc]
      rw [List.pairwise_cons]
      refine ⟨?_, List.pairwise_cons.mpr ⟨hy, hys⟩⟩
      intro z hz
      rcases List.mem_cons.mp hz with h | h
      · subst h; omega
      · have := hy z h; omega

theorem sortCountDesc_pairwise (l : List (String × Nat)) :
    (sortCountDesc l).Pairwise (fun a b => b.2 ≤ a.2) := by
  induction l with
  | nil => simp [sortCountDesc]
  | cons x xs ih => exact pairwise_insertCountDesc x ih

theorem insertCountDesc_perm (x : String × Nat) :
    ∀ l : List (String × Nat), (insertCountDesc x l).Perm (x :: l) := by
  intro l
  induction l with
  | nil => simp [insertCountDesc]
  | cons y ys ih =>
    by_cases hc : y.2 > x.2
    · simp only [insertCountDesc, if_pos hc]
      exact (List.Perm.cons y ih).trans (List.Perm.swap x y ys)
    · simp [insertCountDesc, if_neg hc]

theorem sortCountDesc_perm (l : List (String × Nat)) : (sortCountDesc l).Perm l := by
  induction l with
  | nil => simp [sortCountDesc]
  | cons x xs ih =>
    exact (insertCountDesc_perm x (sortCountDesc xs)).trans (List.Perm.cons x ih)

theorem filter_insertCountDesc (x : String × Nat) (c : Nat) :
    ∀ l : List (String × Nat),
      (insertCountDesc x l).filter (fun p => p.2 == c) =
        if x.2 == c then x :: l.filter (fun p => p.2 == c)
        else l.filter (fun p => p.2 == c) := by
  intro l
  induction l with
  | nil =>
    by_cases hx : x.2 = c <;> simp [insertCountDesc, hx]
  | cons y ys ih =>
    by_cases hc : y.2 > x.2
    · simp only [insertCountDesc, if_pos hc]
      rw [List.filter_cons, ih, List.filter_cons]
      by_cases hx : x.2 = c
      · have hy : ¬(y.2 = c) := by omega
        simp [hx, hy]
      · simp [hx]
    · simp only [insertCountDesc, if_neg hc]
      rw [List.filter_cons]

theorem filter_sortCountDesc (c : Nat) :
    ∀ l : List (String × Nat),
      (sortCountDesc l).filter (fun p => p.2 == c) = l.filter (fun p => p.2 == c) := by
  intro l
  induction l with
  | nil => rfl
  | cons x xs ih =>
    show (insertCountDesc x (sortCountDesc xs)).filter _ = _
    rw [filter_insertCountDesc, List.filter_cons, ih]

theorem applyMistakes_categories :
    ∀ (calls : List (String × String × String)) (a : AnalyticsTracker) (now : Nat),
      (applyMistakes a now calls).mistake_categories =
        bumpFold calls a.mistake_categories := by
  intro calls
  induction calls with
  | nil => intro a now; rfl
  | cons cll rest ih =>
    intro a now
    exact ih (a.log_mistake now cll.1 cll.2.1 cll.2.2) now

theorem bumpFold_rep_grammar (n : Nat) :
    ∀ j : Nat, bumpFold (List.replicate n ("go", "gc", "grammar")) [("grammar", j)] =
      [("grammar", j + n)] := by
  induction n with
  | zero => intro j; rfl
  | succ k ih =>
    intro j
    rw [List.replicate_succ]
    show bumpFold (List.replicate k ("go", "gc", "grammar"))
      (bumpCategory "grammar" [("grammar", j)]) = _
    have hb : bumpCategory "grammar" [("grammar", j)] = [("grammar", j + 1)] := by
      simp [bumpCategory]
    rw [hb, ih (j + 1)]
    have : j + 1 + k = j + (k + 1) := by omega
    rw [this]

theorem bumpFold_rep_vocab (n : Nat) :
    ∀ (j k : Nat),
      bumpFold (List.replicate n ("vo", "vc", "vocabulary"))
          [("grammar", k), ("vocabulary", j)] =
        [("grammar", k), ("vocabulary", j + n)] := by
  induction n with
  | zero => intro j k; rfl
  | succ m ih =>
    intro j k
    rw [List.replicate_succ]
    show bumpFold (List.replicate m ("vo", "vc", "vocabulary"))
      (bumpCategory "vocabulary" [("grammar", k), ("vocabulary", j)]) = _
    have hb : bumpCategory "vocabulary" [("grammar", k), ("vocabulary", j)] =
        [("grammar", k), ("vocabulary", j + 1)] := by
      simp [bumpCategory]
    rw [hb, ih (j + 1) k]
    have : j + 1 + m = j + (m + 1) := by omega
    rw [this]

theorem gvCalls_categories (k m : Nat) (hk : 1 ≤ k) (now : Nat) :
    (applyMistakes (mkAnalytics 0) now (gvCalls k m)).mistake_categories =
      if m = 0 then [("grammar", k)] else [("grammar", k), ("vocabulary", m)] := by
  rw [applyMistakes_categories, gvCalls]
  show bumpFold (List.replicate k ("go", "gc", "grammar") ++
      List.replicate m ("vo", "vc", "vocabulary")) [] = _
  rw [bumpFold, List.foldl_append]
  obtain ⟨k', rfl⟩ : ∃ k', k = k' + 1 := ⟨k - 1, by omega⟩
  have hg : List.foldl (fun acc c => bumpCategory c.2.2 acc) []
      (List.replicate (k' + 1) ("go", "gc", "grammar")) = [("grammar", k' + 1)] := by
    rw [List.replicate_succ]
    show bumpFold (List.replicate k' ("go", "gc", "grammar"))
      (bumpCategory "grammar" []) = _
    have hb : bumpCategory "grammar" ([] : List (String × Nat)) = [("grammar", 1)] := rfl
    rw [hb, bumpFold_rep_grammar k' 1]
    have : 1 + k' = k' + 1 := by omega
    rw [this]
  rw [hg]
  cases m with
  | zero => rfl
  | succ m' =>
    show bumpFold (List.replicate (m' + 1) ("vo", "vc", "vocabulary"))
      [("grammar", k' + 1)] = _
    rw [List.replicate_succ]
    show bumpFold (List.replicate m' ("vo", "vc", "vocabulary"))
      (bumpCategory "vocabulary" [("grammar", k' + 1)]) = _
    have hb : bumpCategory "vocabulary" [("grammar", k' + 1)] =
        [("grammar", k' + 1), ("vocabulary", 1)] := by
      simp [bumpCategory]
    rw [hb, bumpFold_rep_vocab m' 1 (k' + 1)]
    have h1 : 1 + m' = m' + 1 := by omega
    rw [h1]
    simp

/-- C7: for every tracker and every `n`, `get_common_mistakes n` returns at
most `n` category/count pairs, sorted by count descending, with ties kept in
the insertion order of the underlying category list (the filtered
subsequence at each count value is preserved); and after `k` `"grammar"`
mistakes followed by `m` `"vocabulary"` mistakes with `m < k`, the top-1 list
is exactly `[("grammar", k)]`. -/
theorem C7_top_categories :
    (∀ (a : AnalyticsTracker) (n : Nat),
        (a.get_common_mistakes n).length ≤ n
        ∧ (a.get_common_mistakes n).Pairwise (fun x y => y.2 ≤ x.2)
        ∧ ∀ c : Nat,
            (sortCountDesc a.mistake_categories).filter (fun p => p.2 == c) =
              a.mistake_categories.filter (fun p => p.2 == c))
    ∧ (∀ (now k m : Nat), m < k →
        (applyMistakes (mkAnalytics 0) now (gvCalls k m)).get_common_mistakes 1 =
          [("grammar", k)]) := by
  constructor
  · intro a n
    refine ⟨List.length_take_le n _, ?_, fun c => filter_sortCountDesc c _⟩
    exact (sortCountDesc_pairwise a.mistake_categories).sublist
      (List.take_sublist n _) |>.imp (fun h => h) |>.sublist (List.Sublist.refl _)
  · intro now k m hlt
    unfold AnalyticsTracker.get_common_mistakes
    rw [gvCalls_categories k m (by omega) now]
    cases m with
    | zero =>
      simp [sortCountDesc, insertCountDesc]
    | succ m' =>
      have hmk : ¬(m' + 1 > k) := by omega
      simp [sortCountDesc, insertCountDesc, hmk]

/-- C7 witness: three `"grammar"` mistakes and two `"vocabulary"` mistakes;
the top-1 category list is `[("grammar", 3)]`. -/
theorem C7_top_categories_witness :
    (applyMistakes (mkAnalytics 0) 0 (gvCalls 3 2)).get_common_mistakes 1 =
      [("grammar", 3)] :=
  C7_top_categories.2 0 3 2 (by decide)

/-! ### C8 — rendering the history transcript -/

theorem renderLines_eq_joinSep :
    ∀ l : List Message, l ≠ [] →
      renderLines l = joinSep "\n" (l.map renderLine) ++ "\n" := by
  intro l
  induction l with
  | nil => intro h; exact absurd rfl h
  | cons x rest ih =>
    intro _
    cases rest with
    | nil =>
      show (renderLine x ++ "\n") ++ "" = joinSep "\n" [renderLine x] ++ "\n"
      rw [String.append_empty]
      rfl
    | cons y ys =>
      show (renderLine x ++ "\n") ++ renderLines (y :: ys) = _
      rw [ih (by simp)]
      show _ = (renderLine x ++ "\n" ++ joinSep "\n" ((y :: ys).map renderLine)) ++ "\n"
      simp only [String.append_assoc]

/-- C8 (amended): `get_history_string` returns the empty string on an empty
History and otherwise the chronological transcript lines
`"<DisplayName>: <text>"` joined by newlines **with a trailing newline**
(equivalently, the concatenation of the newline-terminated lines); one user
turn plus one assistant turn render as exactly those two newline-terminated
lines in order. -/
theorem C8_render_history (m : ConversationMemory) :
    (m.history = [] → m.get_history_string = "")
    ∧ (m.history ≠ [] →
        m.get_history_string = joinSep "\n" (m.history.map renderLine) ++ "\n")
    ∧ (∀ u a2 : String,
        (((mkMemory 10).add_message "user" u).add_message
            "assistant" a2).get_history_string
          = "User: " ++ u ++ "\n" ++ ("BhashaVox AI: " ++ a2 ++ "\n")) := by
  refine ⟨?_, ?_, ?_⟩
  · intro h
    simp [ConversationMemory.get_history_string, h]
  · intro h
    rw [ConversationMemory.get_history_string,
      if_neg (by simpa [List.isEmpty_iff] using h)]
    exact renderLines_eq_joinSep m.history h
  · intro u a2
    have h : (((mkMemory 10).add_message "user" u).add_message
          "assistant" a2).get_history_string
        = ("User" ++ ": " ++ u ++ "\n") ++
            (("BhashaVox AI" ++ ": " ++ a2 ++ "\n") ++ "") := rfl
    rw [h, String.append_empty]
    rfl

/-- C8 witness: a single-message history and the concrete two-turn history. -/
theorem C8_render_history_witness :
    ((mkMemory 10).get_history_string = "")
    ∧ (oneUserMsgMemory.get_history_string =
        joinSep "\n" (oneUserMsgMemory.history.map renderLine) ++ "\n")
    ∧ ((((mkMemory 10).add_message "user" "hi").add_message
          "assistant" "yo").get_history_string
        = "User: " ++ "hi" ++ "\n" ++ ("BhashaVox AI: " ++ "yo" ++ "\n")) :=
  ⟨(C8_render_history (mkMemory 10)).1 rfl,
   (C8_render_history oneUserMsgMemory).2.1 (by decide),
   (C8_render_history (mkMemory 10)).2.2 "hi" "yo"⟩

/-- C8 counterexample: a History holding the single user message `"hi"`
renders as `"User: hi\n"` with a trailing newline, not as the plain
newline-join `"User: hi"` — so the claim's "rendered as
`\"<DisplayName>: <text>\"` joined by newlines" is not what the code
returns. -/
theorem C8_render_history_counterexample :
    oneUserMsgMemory.get_history_string ≠
      joinSep "\n" (oneUserMsgMemory.history.map renderLine) := by
  decide

/-! ### C9 — the session summary and its category histogram -/

/-- C9 (amended): `get_session_summary` assembles the derived fields from the
tracker state, with `common_mistakes` equal to `get_common_mistakes 5` — a
histogram holding at most 5 entries, which contains an entry for every
distinct recorded category exactly when at most 5 distinct categories have
been recorded. -/
theorem C9_session_summary (a : AnalyticsTracker) (now : Nat) :
    ((a.get_session_summary now).total_messages = a.total_messages)
    ∧ ((a.get_session_summary now).corrections_made = a.corrections_made)
    ∧ ((a.get_session_summary now).accuracy_rate = a.get_accuracy_rate)
    ∧ ((a.get_session_summary now).total_mistake_types = a.mistake_categories.length)
    ∧ ((a.get_session_summary now).common_mistakes = a.get_common_mistakes 5)
    ∧ ((a.get_session_summary now).common_mistakes.length ≤ 5)
    ∧ (a.mistake_categories.length ≤ 5 →
        ∀ p ∈ a.mistake_categories, p ∈ (a.get_session_summary now).common_mistakes) := by
  refine ⟨rfl, rfl, rfl, rfl, rfl, List.length_take_le 5 _, ?_⟩
  intro hlen p hp
  show p ∈ (sortCountDesc a.mistake_categories).take 5
  have hslen : (sortCountDesc a.mistake_categories).length ≤ 5 := by
    rw [(sortCountDesc_perm a.mistake_categories).length_eq]
    exact hlen
  rw [List.take_of_length_le hslen]
  exact ((sortCountDesc_perm a.mistake_categories).mem_iff).mpr hp

/-- C9 witness: a tracker with a single recorded category; the category
appears in the summary histogram. -/
theorem C9_session_summary_witness :
    ("grammar", 2) ∈ (overMistakes.get_session_summary 3).common_mistakes :=
  (C9_session_summary overMistakes 3).2.2.2.2.2.2 (by decide) ("grammar", 2) (by decide)

/-- C9 counterexample: after six mistakes in six distinct categories, the
sixth category `"f"` was recorded but has no entry in the summary's
`common_mistakes` histogram (which is truncated to the top 5). -/
theorem C9_session_summary_counterexample :
    ("f", 1) ∈ sixCats.mistake_categories
    ∧ ("f", 1) ∉ (sixCats.get_session_summary 0).common_mistakes := by
  refine ⟨by decide, ?_⟩
  intro h
  have : ("f", 1) ∈ ((sixCats.get_session_summary 0).common_mistakes) := h
  revert this
  decide
